import Mathlib

/-!
Verification of the TKML launcher's acquisition/assembly pipeline against
its design specification.  Each component used by the spec's testable
properties is shallowly embedded from the Python source:

* `BuildManager._is_library_needed`  (src/python/core/build_manager.py)
* `CacheService`                     (src/python/services/cache_service.py)
* `DownloadService.download_file_sync` and
  `DownloadService.download_multiple_files`
                                     (src/python/services/download_service.py)
* `BuildManager.set_build_state` / `get_build_state` / `clear_build_state`
* `safe_format` placeholder substitution
                                     (src/python/ui/tabs/installations_tab.py)
* the network-call structure of `BuildManager.create_build`.

Python strings are modelled as `String` (or `List Char` where character
level processing matters), bytes as `List Nat`, wall-clock times as `Nat`
seconds, and the filesystem / network as explicit state or oracles.
-/

namespace TKML

/-! ## Library rule evaluator

Embedding of `BuildManager._is_library_needed(library, current_os)`.
A rule dictionary carries `action` (defaulting to "allow" via
`rule.get("action", "allow")`) and an `os` sub-dictionary that may carry
a `name` and/or an `arch` key.  The Python loop checks the OS key first
and `return`s on an allow/disallow decision; when the `os` dict has no
`name` key (or the action is neither literal), it falls through to the
`arch` check of the same rule; after the loop the library is needed. -/

structure OsRule where
  name : Option String
  arch : Option String
deriving DecidableEq, Repr

structure LibRule where
  action : String
  os : OsRule
deriving DecidableEq, Repr

/-- One `if rule_os == current_os: ...` block of `_is_library_needed`:
`some b` when the Python code executes `return b`, `none` when it falls
through (key absent, or action neither "allow" nor "disallow"). -/
def rulePartDecision (key : Option String) (current : String) (action : String) :
    Option Bool :=
  match key with
  | none => none
  | some v =>
    if v = current then
      if action = "allow" then some true
      else if action = "disallow" then some false
      else none
    else
      if action = "allow" then some false
      else if action = "disallow" then some true
      else none

/-- The decision a single loop iteration of `_is_library_needed` returns:
OS-name check first, then the architecture check of the same rule. -/
def ruleDecision (r : LibRule) (currentOS currentArch : String) : Option Bool :=
  match rulePartDecision r.os.name currentOS r.action with
  | some b => some b
  | none => rulePartDecision r.os.arch currentArch r.action

/-- The `for rule in rules` loop body: the first rule that produces a
decision makes the function `return`; an exhausted loop returns `True`. -/
def rulesLoop (rules : List LibRule) (currentOS currentArch : String) : Bool :=
  match rules with
  | [] => true
  | r :: rest =>
    match ruleDecision r currentOS currentArch with
    | some b => b
    | none => rulesLoop rest currentOS currentArch

/-- `BuildManager._is_library_needed`: `rules = library.get("rules", [])`;
`if not rules: return True`; then the loop. -/
def is_library_needed (rules : List LibRule) (currentOS currentArch : String) : Bool :=
  if rules = [] then true
  else rulesLoop rules currentOS currentArch

/-- Shorthand for an OS-name-only rule dictionary. -/
def osRule (action osName : String) : LibRule :=
  { action := action, os := { name := some osName, arch := none } }

/-- C1 counterexample: for `rules = [{allow, os:windows}, {disallow, os:windows}]`
evaluated with `currentOS = windows` the evaluator returns `true` (needed):
the first applicable rule makes the function return, so the later
`disallow` never runs, contradicting the claim that the last applicable
decision stands and the library is not needed. -/
theorem C1_last_rule_wins_counterexample :
    is_library_needed [osRule "allow" "windows", osRule "disallow" "windows"]
      "windows" "amd64" = true := by
  decide

/-- C1 (amended): rules are evaluated in document order and the FIRST
applicable decision stands (the function returns at the first rule whose
OS name yields an allow/disallow outcome, so any later rules are dead);
in particular for `[{allow, os:windows}, {disallow, os:windows}]` with
`currentOS = windows` the first rule wins and the library IS needed.
An empty rule list yields needed; a first rule whose OS name matches
`currentOS` yields needed on allow and not needed on disallow, and a
first rule whose OS name does not match yields not needed on allow and
needed on disallow — irrespective of all following rules. -/
theorem C1_rule_evaluator_first_decision_stands
    (currentOS otherOS currentArch : String) (rest : List LibRule)
    (hne : otherOS ≠ currentOS) :
    is_library_needed [] currentOS currentArch = true ∧
    is_library_needed (osRule "allow" currentOS :: rest) currentOS currentArch = true ∧
    is_library_needed (osRule "disallow" currentOS :: rest) currentOS currentArch = false ∧
    is_library_needed (osRule "allow" otherOS :: rest) currentOS currentArch = false ∧
    is_library_needed (osRule "disallow" otherOS :: rest) currentOS currentArch = true ∧
    is_library_needed [osRule "allow" "windows", osRule "disallow" "windows"]
      "windows" currentArch = true := by
  refine ⟨rfl, ?_, ?_, ?_, ?_, ?_⟩ <;>
    simp [is_library_needed, rulesLoop, ruleDecision, rulePartDecision, osRule, hne]

/-- Witness for `C1_rule_evaluator_first_decision_stands` at a concrete
instantiation. -/
theorem C1_rule_evaluator_first_decision_stands_witness :
    is_library_needed [] "windows" "amd64" = true ∧
    is_library_needed (osRule "allow" "windows" :: [osRule "disallow" "linux"])
      "windows" "amd64" = true ∧
    is_library_needed (osRule "disallow" "windows" :: [osRule "disallow" "linux"])
      "windows" "amd64" = false ∧
    is_library_needed (osRule "allow" "linux" :: [osRule "disallow" "linux"])
      "windows" "amd64" = false ∧
    is_library_needed (osRule "disallow" "linux" :: [osRule "disallow" "linux"])
      "windows" "amd64" = true ∧
    is_library_needed [osRule "allow" "windows", osRule "disallow" "windows"]
      "windows" "amd64" = true :=
  C1_rule_evaluator_first_decision_stands "windows" "linux" "amd64"
    [osRule "disallow" "linux"] (by decide)

/-! ## Cache service

Embedding of `CacheService` (src/python/services/cache_service.py).
The cache directory is modelled as a map from sanitized file names to
`(bytes, mtime)`; wall-clock time is an explicit `Nat` parameter (the
Python code reads `time.time()` and file `st_mtime`). -/

/-- Byte blobs (`bytes` in Python). -/
abbrev Blob := List Nat

structure CacheState where
  /-- Contents of the cache directory: sanitized name ↦ (data, mtime). -/
  files : List Char → Option (Blob × Nat)
  /-- `self.default_ttl` (3600 when the config does not override it). -/
  default_ttl : Nat

/-- One character of `CacheService._key_to_path`'s sanitization. -/
def sanitizeChar (c : Char) : Char :=
  if c = '/' ∨ c = ':' ∨ c = '?' ∨ c = '&' then '_' else c

/-- `CacheService._key_to_path`: the Python code applies
`.replace('/','_').replace(':','_').replace('?','_').replace('&','_')`
in sequence; since each replaces a single character by `'_'` and `'_'`
is never itself replaced, the composition is this pointwise map. -/
def keyToPath (key : List Char) : List Char :=
  key.map sanitizeChar

/-- The effective TTL: Python's `ttl = ttl or self.default_ttl` falls
back to the default both for `None` and for `0` (zero is falsy). -/
def effectiveTtl (ttl : Option Nat) (dflt : Nat) : Nat :=
  match ttl with
  | none => dflt
  | some t => if t = 0 then dflt else t

/-- `CacheService.set(key, data)`: write the blob and stamp its mtime
with the current time (`os.utime(path, None)`). -/
def cacheSet (st : CacheState) (now : Nat) (key : List Char) (data : Blob) :
    CacheState :=
  { st with files := fun p => if p = keyToPath key then some (data, now) else st.files p }

/-- `CacheService.has(key, ttl)`: absent file ⇒ `False`; an entry whose
age exceeds the effective TTL is unlinked and `False` is returned;
otherwise `True`.  Returns the possibly-evicted state alongside. -/
def cacheHas (st : CacheState) (now : Nat) (key : List Char) (ttl : Option Nat) :
    Bool × CacheState :=
  match st.files (keyToPath key) with
  | none => (false, st)
  | some entry =>
    let age := now - entry.2
    if age > effectiveTtl ttl st.default_ttl then
      (false, { st with files := fun p => if p = keyToPath key then none else st.files p })
    else
      (true, st)

/-- `CacheService.get(key, ttl)`: `None` unless `has` succeeds, else the
stored bytes. -/
def cacheGet (st : CacheState) (now : Nat) (key : List Char) (ttl : Option Nat) :
    Option Blob × CacheState :=
  let h := cacheHas st now key ttl
  if h.1 then
    (((h.2).files (keyToPath key)).map (fun e => e.1), h.2)
  else
    (none, h.2)

/-- The empty cache directory with the default 1-hour TTL. -/
def emptyCache : CacheState :=
  { files := fun _ => none, default_ttl := 3600 }

/-- C2 counterexample: `Cache.set(k, b)` then `Cache.has(k, ttl=0)`
returns TRUE, not false: `ttl or self.default_ttl` coerces `ttl=0` to
the default TTL (0 is falsy in Python), and the fresh entry's age does
not exceed that default. -/
theorem C2_ttl_zero_counterexample :
    (cacheHas (cacheSet emptyCache 0 ['k'] [7, 42]) 1 ['k'] (some 0)).1 = true := by
  decide

/-- C2 (amended): after `Cache.set(k, b)`, `Cache.has(k, ttl=0)` returns
TRUE whenever the entry's age is within the default TTL, because
`ttl or self.default_ttl` coerces `0` to the default; `Cache.has(k,
ttl=large)` (any positive `ttl` at least the entry's age) returns true
and `Cache.get(k, ttl=large)` returns `b` byte-for-byte; and an entry
whose age exceeds the given positive `ttl` is treated as absent: `has`
deletes the file and returns false. -/
theorem C2_cache_ttl_amended (st : CacheState) (k : List Char) (b : Blob)
    (tset now : Nat) :
    (now - tset ≤ st.default_ttl →
      (cacheHas (cacheSet st tset k b) now k (some 0)).1 = true) ∧
    (∀ large, 0 < large → now - tset ≤ large →
      (cacheHas (cacheSet st tset k b) now k (some large)).1 = true ∧
      (cacheGet (cacheSet st tset k b) now k (some large)).1 = some b) ∧
    (∀ t, 0 < t → t < now - tset →
      (cacheHas (cacheSet st tset k b) now k (some t)).1 = false ∧
      (cacheHas (cacheSet st tset k b) now k (some t)).2.files (keyToPath k) = none) := by
  refine ⟨fun hage => ?_, fun large hpos hage => ⟨?_, ?_⟩, fun t hpos hexp => ⟨?_, ?_⟩⟩
  · simp only [cacheHas, cacheSet, effectiveTtl]
    simp [Nat.not_lt.mpr hage]
  · simp only [cacheHas, cacheSet, effectiveTtl]
    simp [Nat.pos_iff_ne_zero.mp hpos, Nat.not_lt.mpr hage]
  · simp only [cacheGet, cacheHas, cacheSet, effectiveTtl]
    simp [Nat.pos_iff_ne_zero.mp hpos, Nat.not_lt.mpr hage]
  · simp only [cacheHas, cacheSet, effectiveTtl]
    simp [Nat.pos_iff_ne_zero.mp hpos, hexp]
  · simp only [cacheHas, cacheSet, effectiveTtl]
    simp [Nat.pos_iff_ne_zero.mp hpos, hexp]

/-- Witness for `C2_cache_ttl_amended` at a concrete cache run. -/
theorem C2_cache_ttl_amended_witness :
    (10 - 0 ≤ emptyCache.default_ttl →
      (cacheHas (cacheSet emptyCache 0 ['k'] [1, 2]) 10 ['k'] (some 0)).1 = true) ∧
    (∀ large, 0 < large → 10 - 0 ≤ large →
      (cacheHas (cacheSet emptyCache 0 ['k'] [1, 2]) 10 ['k'] (some large)).1 = true ∧
      (cacheGet (cacheSet emptyCache 0 ['k'] [1, 2]) 10 ['k'] (some large)).1 = some [1, 2]) ∧
    (∀ t, 0 < t → t < 10 - 0 →
      (cacheHas (cacheSet emptyCache 0 ['k'] [1, 2]) 10 ['k'] (some t)).1 = false ∧
      (cacheHas (cacheSet emptyCache 0 ['k'] [1, 2]) 10 ['k'] (some t)).2.files
        (keyToPath ['k']) = none) :=
  C2_cache_ttl_amended emptyCache ['k'] [1, 2] 0 10

/-- C9: the key sanitization is not injective — the distinct keys
`"a/b"` and `"a_b"` map to the same cache file, so bytes stored under
the first are returned by a lookup of the second. -/
theorem C9_key_sanitization_collision :
    (['a', '/', 'b'] : List Char) ≠ ['a', '_', 'b'] ∧
    keyToPath ['a', '/', 'b'] = keyToPath ['a', '_', 'b'] ∧
    (cacheHas (cacheSet emptyCache 0 ['a', '/', 'b'] [3, 1, 4]) 1
      ['a', '_', 'b'] none).1 = true ∧
    (cacheGet (cacheSet emptyCache 0 ['a', '/', 'b'] [3, 1, 4]) 1
      ['a', '_', 'b'] none).1 = some [3, 1, 4] := by
  refine ⟨by decide, by decide, by decide, by decide⟩

/-! ## Transport: `DownloadService.download_file_sync`

One network attempt either raises an exception (possibly after part of
the body was written to `dest`) or streams a response whose declared
`content-length` is `declaredTotal` (0 when the header is absent) in a
list of chunks.  The call's observable behaviour is collected in a
`DlResult`: the returned boolean, the ordered progress / sleep / network
events, the final contents of `dest`, the contents of `dest` at the
moment each failed attempt's exception is caught (before the cleanup
`dest.unlink()`), and the contents of `dest` after each attempt is fully
handled. -/

inductive AttemptOutcome where
  /-- The attempt raised; `wrote = some p` when the destination file had
  been created and held bytes `p` at that point, `none` when the failure
  happened before the file was opened. -/
  | fail (wrote : Option Blob)
  /-- The attempt streamed `chunks` with declared content length
  `declaredTotal`. -/
  | ok (declaredTotal : Nat) (chunks : List Blob)
deriving DecidableEq, Repr

/-- Progress-message texts, abstracted (the Russian literals and the
speed figure are irrelevant to the claims). -/
inductive DlMsg where
  | fromCache | downloading | done | error
deriving DecidableEq, Repr

inductive DlEvent where
  | netAttempt
  | progress (percent : Int) (msg : DlMsg)
  | sleep (seconds : Nat)
  | cacheWrite
deriving DecidableEq, Repr

/-- The `for chunk in r.iter_content(...)` loop: empty chunks are
skipped (`if chunk:`); for each written chunk, when a progress callback
is attached and `total` is nonzero, `int(downloaded * 100 / total)` is
reported (exact non-negative division, so `Nat` floor division). -/
def chunkEvents (total : Nat) : List Blob → Nat → List DlEvent
  | [], _ => []
  | c :: rest, downloaded =>
    if c = [] then chunkEvents total rest downloaded
    else
      let d := downloaded + c.length
      (if total ≠ 0 then [DlEvent.progress ((d * 100 / total : Nat) : Int) DlMsg.downloading]
       else [])
        ++ chunkEvents total rest d

structure DlResult where
  ok : Bool
  events : List DlEvent
  dest : Option Blob
  /-- `dest` at the moment each failed attempt's exception is caught. -/
  destAtFailure : List (Option Blob)
  /-- `dest` after each attempt (cleanup included) is handled. -/
  destHistory : List (Option Blob)
deriving DecidableEq, Repr

/-- The `for attempt in range(1, max_retries + 1)` loop of
`download_file_sync`, carried over the list of remaining attempt
outcomes (length 3 at the top call).  A successful attempt writes the
chunks, stores the fresh bytes into the cache when `use_cache`, reports
100% and returns `True`.  A failed attempt deletes the destination file
if it exists, then sleeps 3 seconds unless it was the last attempt, in
which case it reports the `-1` sentinel and returns `False`. -/
def runAttempts (useCache : Bool) : List AttemptOutcome → Option Blob → DlResult
  | [], dest => ⟨false, [], dest, [], []⟩
  | o :: rest, dest =>
    match o with
    | .ok total chunks =>
      let data := chunks.flatten
      ⟨true,
        DlEvent.netAttempt :: chunkEvents total chunks 0
          ++ (if useCache then [DlEvent.cacheWrite] else [])
          ++ [DlEvent.progress 100 DlMsg.done],
        some data, [], [some data]⟩
    | .fail wrote =>
      let destBefore := match wrote with
        | some p => some p
        | none => dest
      if rest.isEmpty then
        ⟨false, [DlEvent.netAttempt, DlEvent.progress (-1) DlMsg.error],
          none, [destBefore], [none]⟩
      else
        let r := runAttempts useCache rest none
        ⟨r.ok, DlEvent.netAttempt :: DlEvent.sleep 3 :: r.events, r.dest,
          destBefore :: r.destAtFailure, none :: r.destHistory⟩

/-- `DownloadService.download_file_sync(url, dest, progress_callback,
use_cache)`.  Cache-first: when `use_cache` and `Cache.has(url)` and the
cached bytes are truthy (`if data:` — a `None` or empty read falls
through to the network path), the cached bytes are written to `dest`,
100% is reported, and no attempt is made.  Otherwise up to 3 attempts
run with a 3-second `time.sleep` between consecutive attempts. -/
def download_file_sync (useCache cacheHasKey : Bool) (cacheData : Option Blob)
    (attempts : Nat → AttemptOutcome) (dest0 : Option Blob) : DlResult :=
  if useCache && cacheHasKey && !(cacheData.getD []).isEmpty then
    ⟨true, [DlEvent.progress 100 DlMsg.fromCache], cacheData, [], []⟩
  else
    runAttempts useCache [attempts 1, attempts 2, attempts 3] dest0

/-- The percents passed to the progress callback, in order. -/
def progressPercents (es : List DlEvent) : List Int :=
  es.filterMap fun e =>
    match e with
    | .progress p _ => some p
    | _ => none

/-- Whether an event is a progress report inside `[-1, 100]`. -/
def percentInRange : DlEvent → Bool
  | .progress p _ => -1 ≤ p && p ≤ 100
  | _ => true

/-- Whether an event is the `-1` failure-sentinel progress report. -/
def isFailureSentinel : DlEvent → Bool
  | .progress p _ => p = -1
  | _ => false

/-- C4: when no cache hit occurs and every network attempt fails,
`download_file_sync` performs exactly 3 attempts with a 3-second sleep
between consecutive attempts, returns failure with the `-1` sentinel,
leaves no file at the destination after the final failure, and the
destination is deleted after each failed attempt (`destHistory` is
`none` at every step). -/
theorem C4_retry_budget (useCache cacheHasKey : Bool) (cacheData : Option Blob)
    (w : Nat → Option Blob) (dest0 : Option Blob)
    (hmiss : (useCache && cacheHasKey && !(cacheData.getD []).isEmpty) = false) :
    (download_file_sync useCache cacheHasKey cacheData
        (fun i => AttemptOutcome.fail (w i)) dest0).ok = false ∧
    (download_file_sync useCache cacheHasKey cacheData
        (fun i => AttemptOutcome.fail (w i)) dest0).events =
      [DlEvent.netAttempt, DlEvent.sleep 3, DlEvent.netAttempt, DlEvent.sleep 3,
        DlEvent.netAttempt, DlEvent.progress (-1) DlMsg.error] ∧
    (download_file_sync useCache cacheHasKey cacheData
        (fun i => AttemptOutcome.fail (w i)) dest0).dest = none ∧
    (download_file_sync useCache cacheHasKey cacheData
        (fun i => AttemptOutcome.fail (w i)) dest0).destHistory = [none, none, none] := by
  refine ⟨?_, ?_, ?_, ?_⟩ <;> simp [download_file_sync, hmiss, runAttempts]

/-- Witness for `C4_retry_budget`: uncached URL whose attempts all fail. -/
theorem C4_retry_budget_witness :
    (download_file_sync false false none
        (fun i => AttemptOutcome.fail ((fun _ => (none : Option Blob)) i)) none).ok = false ∧
    (download_file_sync false false none
        (fun i => AttemptOutcome.fail ((fun _ => (none : Option Blob)) i)) none).events =
      [DlEvent.netAttempt, DlEvent.sleep 3, DlEvent.netAttempt, DlEvent.sleep 3,
        DlEvent.netAttempt, DlEvent.progress (-1) DlMsg.error] ∧
    (download_file_sync false false none
        (fun i => AttemptOutcome.fail ((fun _ => (none : Option Blob)) i)) none).dest = none ∧
    (download_file_sync false false none
        (fun i => AttemptOutcome.fail ((fun _ => (none : Option Blob)) i)) none).destHistory =
      [none, none, none] :=
  C4_retry_budget false false none (fun _ => none) none (by decide)

/-- C6 counterexample: with cache-first enabled and `Cache.has(url)`
true but the cached blob empty, `if data:` is falsy, so the call falls
through to the network path: with an always-failing endpoint it performs
3 network attempts and returns failure — not the claimed "success with
no network attempt". -/
theorem C6_cache_hit_counterexample :
    (download_file_sync true true (some []) (fun _ => AttemptOutcome.fail none) none).ok
      = false ∧
    ((download_file_sync true true (some []) (fun _ => AttemptOutcome.fail none)
        none).events.count DlEvent.netAttempt) = 3 := by
  decide

/-- C6 (amended): with cache-first enabled, if `Cache.has(url)` holds
AND the cached read yields a non-empty blob, `download_file_sync` writes
the cached bytes to the destination, reports 100% immediately, returns
success, and performs no network attempt; an empty (or unreadable)
cached blob instead falls through to the network retry path. -/
theorem C6_cache_first (cacheData : Blob) (attempts : Nat → AttemptOutcome)
    (dest0 : Option Blob) (hne : cacheData ≠ []) :
    download_file_sync true true (some cacheData) attempts dest0 =
      ⟨true, [DlEvent.progress 100 DlMsg.fromCache], some cacheData, [], []⟩ ∧
    ((download_file_sync true true (some cacheData) attempts dest0).events.count
      DlEvent.netAttempt) = 0 := by
  have hempty : cacheData.isEmpty = false := by
    simpa [List.isEmpty_iff] using hne
  constructor <;> simp [download_file_sync, hempty]

/-- Witness for `C6_cache_first` on a one-byte cached blob. -/
theorem C6_cache_first_witness :
    download_file_sync true true (some [7]) (fun _ => AttemptOutcome.fail none) none =
      ⟨true, [DlEvent.progress 100 DlMsg.fromCache], some [7], [], []⟩ ∧
    ((download_file_sync true true (some [7]) (fun _ => AttemptOutcome.fail none)
        none).events.count DlEvent.netAttempt) = 0 :=
  C6_cache_first [7] (fun _ => AttemptOutcome.fail none) none (by decide)

/-- C8 counterexample: a server that declares `content-length: 1` but
streams 2 bytes makes the byte-granular percent `int(2 * 100 / 1) = 200
> 100`; there is no clamp, so the claimed `[-1, 100]` range is violated. -/
theorem C8_percent_overflow_counterexample :
    progressPercents (download_file_sync false false none
        (fun _ => AttemptOutcome.ok 1 [[9, 9]]) none).events = [200, 100] ∧
    ¬ ((200 : Int) ≤ 100) := by
  decide

/-- Every chunk-loop progress percent stays in `[0, 100]` as long as the
running byte count never exceeds the declared total. -/
theorem chunkEvents_inRange (total : Nat) (chunks : List Blob) (downloaded : Nat)
    (h : downloaded + (chunks.map List.length).sum ≤ total) :
    ∀ e ∈ chunkEvents total chunks downloaded,
      percentInRange e = true ∧ isFailureSentinel e = false := by
  induction chunks generalizing downloaded with
  | nil => intro e he; simp [chunkEvents] at he
  | cons c rest ih =>
    intro e he
    simp only [chunkEvents, List.map_cons, List.sum_cons] at he h
    by_cases hc : c = []
    · rw [if_pos hc] at he
      exact ih downloaded (by simpa [hc] using h) e he
    · rw [if_neg hc] at he
      rcases List.mem_append.mp he with hl | hr
      · by_cases ht : total ≠ 0
        · rw [if_pos ht] at hl
          rcases List.mem_singleton.mp hl with rfl
          have hle : downloaded + c.length ≤ total := by omega
          have hdiv : (downloaded + c.length) * 100 / total ≤ 100 := by
            have h1 : (downloaded + c.length) * 100 ≤ total * 100 :=
              Nat.mul_le_mul_right 100 hle
            calc (downloaded + c.length) * 100 / total ≤ total * 100 / total :=
                  Nat.div_le_div_right h1
              _ = 100 := by
                  rw [Nat.mul_div_cancel_left 100 (Nat.pos_of_ne_zero ht)]
          constructor
          · simp only [percentInRange, Bool.and_eq_true, decide_eq_true_eq]
            constructor
            · exact le_trans (by norm_num) (Int.natCast_nonneg _)
            · exact_mod_cast hdiv
          · simp only [isFailureSentinel, decide_eq_false_iff_not]
            intro hcon
            have hnn : (0 : Int) ≤ (((downloaded + c.length) * 100 / total : Nat) : Int) :=
              Int.natCast_nonneg _
            rw [hcon] at hnn
            norm_num at hnn
        · rw [if_neg ht] at hl
          simp at hl
      · exact ih (downloaded + c.length) (by omega) e hr

/-- The attempt loop only reports percents in `[-1, 100]`, and never the
`-1` sentinel when it returns success, provided every successful
attempt's streamed bytes stay within the declared content length. -/
theorem runAttempts_inRange (useCache : Bool) (outs : List AttemptOutcome)
    (dest : Option Blob)
    (h : ∀ o ∈ outs, ∀ total chunks, o = AttemptOutcome.ok total chunks →
      (chunks.map List.length).sum ≤ total) :
    (∀ e ∈ (runAttempts useCache outs dest).events, percentInRange e = true) ∧
    ((runAttempts useCache outs dest).ok = true →
      ∀ e ∈ (runAttempts useCache outs dest).events, isFailureSentinel e = false) := by
  induction outs generalizing dest with
  | nil => simp [runAttempts]
  | cons o rest ih =>
    match o with
    | .ok total chunks =>
      have hchunk := chunkEvents_inRange total chunks 0
        (by simpa using h _ (List.mem_cons_self _ _) total chunks rfl)
      have hcw : ∀ P : DlEvent → Prop, P DlEvent.cacheWrite →
          ∀ e ∈ (if useCache then [DlEvent.cacheWrite] else []), P e := by
        intro P hP e he
        rcases useCache with _ | _ <;> simp at he
        rw [he]; exact hP
      constructor
      · simp only [runAttempts]
        refine List.forall_mem_cons.mpr ⟨by simp [percentInRange], ?_⟩
        refine List.forall_mem_append.mpr
          ⟨List.forall_mem_append.mpr
            ⟨fun e he => (hchunk e he).1, hcw _ (by simp [percentInRange])⟩, ?_⟩
        simp [percentInRange]
      · intro _
        simp only [runAttempts]
        refine List.forall_mem_cons.mpr ⟨by simp [isFailureSentinel], ?_⟩
        refine List.forall_mem_append.mpr
          ⟨List.forall_mem_append.mpr
            ⟨fun e he => (hchunk e he).2, hcw _ (by simp [isFailureSentinel])⟩, ?_⟩
        simp [isFailureSentinel]
    | .fail wrote =>
      have hrest : ∀ o ∈ rest, ∀ total chunks, o = AttemptOutcome.ok total chunks →
          (chunks.map List.length).sum ≤ total :=
        fun o ho => h o (List.mem_cons_of_mem _ ho)
      by_cases hre : rest.isEmpty
      · constructor
        · simp only [runAttempts, hre, if_true]
          refine List.forall_mem_cons.mpr ⟨by simp [percentInRange], ?_⟩
          simp [percentInRange]
        · intro hok
          simp [runAttempts, hre] at hok
      · constructor
        · simp only [runAttempts, hre, if_false]
          refine List.forall_mem_cons.mpr ⟨by simp [percentInRange], ?_⟩
          refine List.forall_mem_cons.mpr ⟨by simp [percentInRange], ?_⟩
          exact (ih none hrest).1
        · intro hok
          simp only [runAttempts, hre, if_false] at hok
          simp only [runAttempts, hre, if_false]
          refine List.forall_mem_cons.mpr ⟨by simp [isFailureSentinel], ?_⟩
          refine List.forall_mem_cons.mpr ⟨by simp [isFailureSentinel], ?_⟩
          exact (ih none hrest).2 hok

/-- C8 (amended): every progress callback invocation of
`download_file_sync` passes a percent in `[-1, 100]` — with `-1` never
reported on a successful call — PROVIDED every successful attempt
streams at most the declared content length.  The byte-granular percent
`int(downloaded * 100 / total)` is not clamped, so the bound can only be
guaranteed under that proviso (see the counterexample). -/
theorem C8_progress_in_range (useCache cacheHasKey : Bool) (cacheData : Option Blob)
    (attempts : Nat → AttemptOutcome) (dest0 : Option Blob)
    (h : ∀ i total chunks, attempts i = AttemptOutcome.ok total chunks →
      (chunks.map List.length).sum ≤ total) :
    ((download_file_sync useCache cacheHasKey cacheData attempts dest0).events.all
      percentInRange) = true ∧
    ((download_file_sync useCache cacheHasKey cacheData attempts dest0).ok = true →
      ((download_file_sync useCache cacheHasKey cacheData attempts dest0).events.all
        (fun e => !isFailureSentinel e)) = true) := by
  rw [download_file_sync]
  by_cases hcache : (useCache && cacheHasKey && !(cacheData.getD []).isEmpty) = true
  · simp [hcache, percentInRange, isFailureSentinel]
  · rw [if_neg hcache]
    have houts : ∀ o ∈ [attempts 1, attempts 2, attempts 3], ∀ total chunks,
        o = AttemptOutcome.ok total chunks → (chunks.map List.length).sum ≤ total := by
      intro o ho total chunks heq
      simp only [List.mem_cons, List.not_mem_nil, or_false] at ho
      rcases ho with rfl | rfl | rfl
      · exact h 1 total chunks heq
      · exact h 2 total chunks heq
      · exact h 3 total chunks heq
    have hr := runAttempts_inRange useCache [attempts 1, attempts 2, attempts 3] dest0 houts
    constructor
    · exact List.all_eq_true.mpr fun e he => hr.1 e he
    · intro hok
      exact List.all_eq_true.mpr fun e he => by simp [hr.2 hok e he]

/-- Witness for `C8_progress_in_range` on an always-failing endpoint. -/
theorem C8_progress_in_range_witness :
    ((download_file_sync false false none (fun _ => AttemptOutcome.fail none)
        none).events.all percentInRange) = true ∧
    ((download_file_sync false false none (fun _ => AttemptOutcome.fail none)
        none).ok = true →
      ((download_file_sync false false none (fun _ => AttemptOutcome.fail none)
          none).events.all (fun e => !isFailureSentinel e)) = true) :=
  C8_progress_in_range false false none (fun _ => AttemptOutcome.fail none) none
    (by intro i total chunks hq; simp at hq)

/-! ## Concurrent fetch engine: `DownloadService.download_multiple_files`

The thread pool dispatches every pair and the `as_completed` loop
processes one result per submitted future; `outcomes` is the per-item
success list in completion order (the order is unspecified, so the
theorems quantify over an arbitrary list).  `download_single_file`
catches every exception and returns `False`, so each future yields a
boolean. -/

structure FanoutResult where
  ok : Bool
  /-- `(current_file, total_files)` of each `progress_callback` call. -/
  progress : List (Nat × Nat)
deriving DecidableEq, Repr

/-- The `for i, future in enumerate(as_completed(...))` loop, threading
the `successful_downloads` / `failed_downloads` counters and recording
each `progress_callback(current_file, total_files, ...)` invocation
(`current_file = i + 1`), made in both the success and failure branch. -/
def fanoutLoop (total : Nat) : List Bool → Nat → Nat → Nat → Nat × Nat × List (Nat × Nat)
  | [], _, succ, failed => (succ, failed, [])
  | res :: rest, i, succ, failed =>
    let current := i + 1
    let r := if res then fanoutLoop total rest (i + 1) (succ + 1) failed
             else fanoutLoop total rest (i + 1) succ (failed + 1)
    (r.1, r.2.1, (current, total) :: r.2.2)

/-- `DownloadService.download_multiple_files`: empty input returns
`True` immediately; otherwise the loop runs over every completion and
the call returns `failed_downloads == 0`. -/
def download_multiple_files (outcomes : List Bool) : FanoutResult :=
  if outcomes = [] then ⟨true, []⟩
  else
    let r := fanoutLoop outcomes.length outcomes 0 0 0
    ⟨r.2.1 = 0, r.2.2⟩

theorem fanoutLoop_failed (total : Nat) (outcomes : List Bool) (i succ failed : Nat) :
    (fanoutLoop total outcomes i succ failed).2.1 = failed + outcomes.count false := by
  induction outcomes generalizing i succ failed with
  | nil => simp [fanoutLoop]
  | cons res rest ih =>
    rcases res with _ | _ <;> simp [fanoutLoop, ih, List.count_cons]
    omega

theorem fanoutLoop_progress (total : Nat) (outcomes : List Bool) (i succ failed : Nat) :
    (fanoutLoop total outcomes i succ failed).2.2 =
      (List.range outcomes.length).map (fun j => (i + j + 1, total)) := by
  induction outcomes generalizing i succ failed with
  | nil => simp [fanoutLoop]
  | cons res rest ih =>
    rcases res with _ | _ <;>
      · simp [fanoutLoop, ih, List.range_succ_eq_map, List.map_map, Function.comp]
        intro a _
        omega

/-- C5: `download_multiple_files` returns true iff every item
succeeded; the empty list yields true with no callback invocation; over
N items the per-item progress callback is invoked exactly N times, with
completed-items counters exactly `1, 2, ..., N` — in particular
monotonically non-decreasing — so over N pairs of which at least one
fails the call returns false while still reporting all N completions. -/
theorem C5_fanout_completeness (outcomes : List Bool) :
    ((download_multiple_files outcomes).ok = true ↔ outcomes.all id = true) ∧
    (download_multiple_files []).progress = [] ∧
    (download_multiple_files outcomes).progress.length = outcomes.length ∧
    (download_multiple_files outcomes).progress =
      (List.range outcomes.length).map (fun j => (j + 1, outcomes.length)) ∧
    List.Chain' (· ≤ ·) ((download_multiple_files outcomes).progress.map Prod.fst) := by
  rcases heq : outcomes with _ | ⟨o, rest⟩
  · simp [download_multiple_files]
  · have hne : (o :: rest : List Bool) ≠ [] := by simp
    refine ⟨?_, by simp [download_multiple_files], ?_, ?_, ?_⟩
    · simp only [download_multiple_files, if_neg hne, fanoutLoop_failed]
      simp [List.count_eq_zero, List.all_eq_true]
    · simp [download_multiple_files, if_neg hne, fanoutLoop_progress]
    · simp [download_multiple_files, if_neg hne, fanoutLoop_progress]
    · simp only [download_multiple_files, if_neg hne, fanoutLoop_progress]
      have hmap : ((List.range (o :: rest).length).map
          (fun j => ((0 : Nat) + j + 1, (o :: rest).length))).map Prod.fst =
          (List.range (o :: rest).length).map (fun j => j + 1) := by
        simp [List.map_map, Function.comp]
      rw [hmap]
      refine List.Pairwise.chain' ?_
      exact List.Pairwise.map _ (fun a b hab => by omega)
        (List.pairwise_lt_range (o :: rest).length)

/-! ## Build orchestrator: the in-memory build-state table

Embedding of `BuildManager.set_build_state` / `get_build_state` /
`clear_build_state`.  `self.build_states` is a dict guarded by
`self._state_lock`; each operation holds the lock for its whole body, so
the table's sequential behaviour is a plain map. -/

inductive BuildStatus where
  | ready | downloading | installing | error | unknown
deriving DecidableEq, Repr

structure BuildState where
  status : BuildStatus
  progress : Int
  message : String
deriving DecidableEq, Repr

/-- The `self.build_states` dict: build name ↦ stored state. -/
abbrev BuildStateTable := String → Option BuildState

/-- `BuildManager.set_build_state(build_name, status, progress, message)`. -/
def set_build_state (m : BuildStateTable) (name : String) (status : BuildStatus)
    (progress : Int) (message : String) : BuildStateTable :=
  fun x => if x = name then some ⟨status, progress, message⟩ else m x

/-- `BuildManager.get_build_state(build_name)`: `dict.get` with the
default `{status: UNKNOWN, progress: 0, message: ""}`. -/
def get_build_state (m : BuildStateTable) (name : String) : BuildState :=
  (m name).getD ⟨BuildStatus.unknown, 0, ""⟩

/-- `BuildManager.clear_build_state(build_name)`: `del` when present. -/
def clear_build_state (m : BuildStateTable) (name : String) : BuildStateTable :=
  fun x => if x = name then none else m x

/-- The table at process start (`self.build_states = {}`). -/
def emptyBuildStates : BuildStateTable := fun _ => none

/-- C10: the build-state table round-trips — `get` after `set` returns
exactly the stored triple; a never-set name and a cleared name return
the default `{unknown, 0, ""}`; and `set`/`clear` on one name leave
every other name's state unchanged. -/
theorem C10_build_state_roundtrip (m : BuildStateTable) (name : String)
    (status : BuildStatus) (progress : Int) (message : String) (other : String)
    (hne : other ≠ name) :
    get_build_state (set_build_state m name status progress message) name =
      ⟨status, progress, message⟩ ∧
    get_build_state emptyBuildStates name = ⟨BuildStatus.unknown, 0, ""⟩ ∧
    get_build_state (clear_build_state m name) name = ⟨BuildStatus.unknown, 0, ""⟩ ∧
    get_build_state (set_build_state m name status progress message) other =
      get_build_state m other ∧
    get_build_state (clear_build_state m name) other = get_build_state m other := by
  refine ⟨?_, rfl, ?_, ?_, ?_⟩ <;>
    simp [get_build_state, set_build_state, clear_build_state, hne]

/-- Witness for `C10_build_state_roundtrip` on a concrete table. -/
theorem C10_build_state_roundtrip_witness :
    get_build_state (set_build_state emptyBuildStates "A" BuildStatus.ready 100 "ok")
      "A" = ⟨BuildStatus.ready, 100, "ok"⟩ ∧
    get_build_state emptyBuildStates "A" = ⟨BuildStatus.unknown, 0, ""⟩ ∧
    get_build_state (clear_build_state emptyBuildStates "A") "A" =
      ⟨BuildStatus.unknown, 0, ""⟩ ∧
    get_build_state (set_build_state emptyBuildStates "A" BuildStatus.ready 100 "ok")
      "B" = get_build_state emptyBuildStates "B" ∧
    get_build_state (clear_build_state emptyBuildStates "A") "B" =
      get_build_state emptyBuildStates "B" :=
  C10_build_state_roundtrip emptyBuildStates "A" BuildStatus.ready 100 "ok" "B"
    (by decide)

/-! ## Launch assembler: `safe_format` placeholder substitution

Embedding of `safe_format(s)` from `installations_tab.py`:
`s.replace('${', '{').format_map(DefaultDictEmpty(args))` inside a
`try`, returning `s` unchanged when `format_map` raises.  Strings are
`List Char`.  `format_map` is modelled for the fragment the launcher
exercises: `{{` / `}}` escapes, `{field}` replacement fields treated as
mapping keys (with `DefaultDictEmpty.__missing__` returning the empty
string), a stray `}` or an unterminated `{` raising `ValueError`, and an
empty or all-digit field raising `IndexError` (Python treats those as
positional).  Conversion (`!r`) and format-spec (`:>5`) suffixes of
Python's format mini-language are not modelled; the well-formedness
predicate below keeps placeholder names outside that syntax, which is
where every launcher placeholder (`${auth_player_name}`, `${classpath}`,
...) lives. -/

/-- `DefaultDictEmpty(args)[key]`: first binding wins, missing keys
yield the empty string (`__missing__`). -/
def lookupVal (m : List (List Char × List Char)) (k : List Char) : List Char :=
  match m with
  | [] => []
  | (k2, v) :: rest => if k2 = k then v else lookupVal rest k

/-- The `format_map` scanner.  The second argument is `none` in literal
mode and `some acc` inside a replacement field (field characters held in
reverse).  A `none` result is a raised exception. -/
def fmAux (m : List (List Char × List Char)) :
    List Char → Option (List Char) → Option (List Char)
  | [], none => some []
  | [], some _ => none
  | c :: rest, some acc =>
    if c = '}' then
      let field := acc.reverse
      if field.isEmpty || field.all Char.isDigit then none
      else (fmAux m rest none).map (fun t => lookupVal m field ++ t)
    else if c = '{' then none
    else fmAux m rest (some (c :: acc))
  | [c], none =>
    if c = '{' then none
    else if c = '}' then none
    else some [c]
  | c :: c2 :: rest, none =>
    if c = '{' then
      if c2 = '{' then (fmAux m rest none).map (fun t => '{' :: t)
      else fmAux m (c2 :: rest) (some [])
    else if c = '}' then
      if c2 = '}' then (fmAux m rest none).map (fun t => '}' :: t)
      else none
    else (fmAux m (c2 :: rest) none).map (fun t => c :: t)

/-- `str.format_map` over the modelled fragment. -/
def format_map (m : List (List Char × List Char)) (s : List Char) :
    Option (List Char) :=
  fmAux m s none

/-- `s.replace('${', '{')`: left-to-right, non-overlapping. -/
def replaceDollar : List Char → List Char
  | [] => []
  | [c] => [c]
  | c :: c2 :: rest =>
    if c = '$' && c2 = '{' then '{' :: replaceDollar rest
    else c :: replaceDollar (c2 :: rest)

/-- `safe_format(s)`: the `try` body, with the `except` branch returning
`s` unchanged — the function never propagates an exception. -/
def safe_format (args : List (List Char × List Char)) (s : List Char) : List Char :=
  match format_map args (replaceDollar s) with
  | some t => t
  | none => s

/-- An argument-template piece: literal text or a `${name}` token. -/
inductive ArgPiece where
  | lit (s : List Char)
  | var (name : List Char)
deriving DecidableEq, Repr

/-- The source text of a template (`${name}` tokens spelled out). -/
def renderTemplate : List ArgPiece → List Char
  | [] => []
  | ArgPiece.lit s :: ps => s ++ renderTemplate ps
  | ArgPiece.var n :: ps => '$' :: '{' :: (n ++ '}' :: renderTemplate ps)

/-- The template text after `replace('${', '{')`. -/
def renderBrace : List ArgPiece → List Char
  | [] => []
  | ArgPiece.lit s :: ps => s ++ renderBrace ps
  | ArgPiece.var n :: ps => '{' :: (n ++ '}' :: renderBrace ps)

/-- The expected substitution: tokens with a bound name get the value,
unbound tokens get the empty string. -/
def substTemplate (m : List (List Char × List Char)) : List ArgPiece → List Char
  | [] => []
  | ArgPiece.lit s :: ps => s ++ substTemplate m ps
  | ArgPiece.var n :: ps => lookupVal m n ++ substTemplate m ps

/-- Literal text is well formed when it contains no brace and no `$`. -/
def wfLit (s : List Char) : Bool :=
  s.all fun c => !(c = '{' || c = '}' || c = '$')

/-- A placeholder name is well formed when it is nonempty, not all
digits (digit-only fields are positional in Python) and stays outside
the format mini-language's special characters. -/
def wfName (n : List Char) : Bool :=
  !n.isEmpty && !(n.all Char.isDigit) &&
    (n.all fun c => !(c = '{' || c = '}' || c = '$' || c = ':' || c = '!' ||
      c = '[' || c = ']' || c = '.'))

def wfPiece : ArgPiece → Bool
  | ArgPiece.lit s => wfLit s
  | ArgPiece.var n => wfName n

def wfTemplate (ps : List ArgPiece) : Bool :=
  ps.all wfPiece

theorem replaceDollar_append (s t : List Char) (hs : ∀ c ∈ s, c ≠ '$') :
    replaceDollar (s ++ t) = s ++ replaceDollar t := by
  induction s with
  | nil => rfl
  | cons c cs ih =>
    have hc : c ≠ '$' := hs c (List.mem_cons_self _ _)
    have ih2 := ih (fun d hd => hs d (List.mem_cons_of_mem _ hd))
    rcases cs with _ | ⟨c2, cs2⟩
    · rcases t with _ | ⟨t1, ts⟩
      · rfl
      · simp only [List.nil_append, List.cons_append, replaceDollar]
        simp [hc]
    · simp only [List.cons_append, replaceDollar] at ih2 ⊢
      simp [hc, ih2]

theorem replaceDollar_token (w : List Char) :
    replaceDollar ('$' :: '{' :: w) = '{' :: replaceDollar w := by
  simp [replaceDollar]

theorem fmAux_lit_append (m : List (List Char × List Char)) (s t : List Char)
    (hs : ∀ c ∈ s, c ≠ '{' ∧ c ≠ '}') :
    fmAux m (s ++ t) none = (fmAux m t none).map (fun r => s ++ r) := by
  induction s with
  | nil =>
    simp [Option.map_id]
  | cons c cs ih =>
    have hc := hs c (List.mem_cons_self _ _)
    have ih2 := ih (fun d hd => hs d (List.mem_cons_of_mem _ hd))
    rcases hct : cs ++ t with _ | ⟨d, ds⟩
    · rcases List.append_eq_nil.mp hct with ⟨rfl, rfl⟩
      simp only [List.nil_append, List.append_nil, fmAux, if_neg hc.1, if_neg hc.2]
      rfl
    · simp only [List.cons_append, hct, fmAux, if_neg hc.1, if_neg hc.2]
      rw [← hct, ih2]
      rcases fmAux m t none with _ | r <;> simp

theorem fmAux_field (m : List (List Char × List Char)) (n : List Char)
    (acc t : List Char) (hn : ∀ c ∈ n, c ≠ '{' ∧ c ≠ '}') :
    fmAux m (n ++ '}' :: t) (some acc) =
      (if (acc.reverse ++ n).isEmpty || (acc.reverse ++ n).all Char.isDigit then none
       else (fmAux m t none).map (fun r => lookupVal m (acc.reverse ++ n) ++ r)) := by
  induction n generalizing acc with
  | nil =>
    simp only [List.nil_append, List.append_nil, fmAux, if_pos rfl]
    simp
  | cons c cs ih =>
    have hc := hn c (List.mem_cons_self _ _)
    simp only [List.cons_append, fmAux, if_neg hc.1, if_neg hc.2]
    rw [ih (c :: acc) (fun d hd => hn d (List.mem_cons_of_mem _ hd))]
    simp

theorem fmAux_var (m : List (List Char × List Char)) (n t : List Char)
    (hn : wfName n = true) :
    fmAux m ('{' :: (n ++ '}' :: t)) none =
      (fmAux m t none).map (fun r => lookupVal m n ++ r) := by
  simp only [wfName, Bool.and_eq_true, Bool.not_eq_true', List.all_eq_true] at hn
  obtain ⟨⟨hne, hdig⟩, hchars⟩ := hn
  have hnochar : ∀ c ∈ n, c ≠ '{' ∧ c ≠ '}' := by
    intro c hc
    have h2 := hchars c hc
    simp only [Bool.not_eq_true', Bool.or_eq_false_iff, decide_eq_false_iff_not] at h2
    exact ⟨h2.1.1.1.1.1.1.1, h2.1.1.1.1.1.1.2⟩
  rcases n with _ | ⟨c1, cs⟩
  · simp at hne
  · have hc1 := hnochar c1 (List.mem_cons_self _ _)
    have hf := fmAux_field m cs [c1] t (fun d hd => hnochar d (List.mem_cons_of_mem _ hd))
    simp only [List.reverse_cons, List.reverse_nil, List.nil_append] at hf
    simp only [List.cons_append]
    rw [fmAux]
    rw [if_pos rfl, if_neg hc1.1]
    rw [fmAux]
    rw [if_neg hc1.2, if_neg hc1.1]
    rw [hf]
    rw [if_neg]
    · simp
    · simp only [List.singleton_append, List.isEmpty_cons, Bool.false_or, Bool.not_eq_true]
      simpa using hdig

theorem wfLit_no_dollar (s : List Char) (h : wfLit s = true) : ∀ c ∈ s, c ≠ '$' := by
  simp only [wfLit, List.all_eq_true, Bool.not_eq_true', Bool.or_eq_false_iff,
    decide_eq_false_iff_not] at h
  intro c hc
  exact (h c hc).2

theorem wfLit_no_brace (s : List Char) (h : wfLit s = true) :
    ∀ c ∈ s, c ≠ '{' ∧ c ≠ '}' := by
  simp only [wfLit, List.all_eq_true, Bool.not_eq_true', Bool.or_eq_false_iff,
    decide_eq_false_iff_not] at h
  intro c hc
  exact ⟨(h c hc).1.1, (h c hc).1.2⟩

theorem wfName_no_dollar (n : List Char) (h : wfName n = true) : ∀ c ∈ n, c ≠ '$' := by
  simp only [wfName, Bool.and_eq_true, List.all_eq_true] at h
  intro c hc
  have h2 := h.2 c hc
  simp only [Bool.not_eq_true', Bool.or_eq_false_iff, decide_eq_false_iff_not] at h2
  exact h2.1.1.1.1.1.2

theorem replaceDollar_render (ps : List ArgPiece) (h : wfTemplate ps = true) :
    replaceDollar (renderTemplate ps) = renderBrace ps := by
  induction ps with
  | nil => rfl
  | cons p ps ih =>
    have h2 : wfPiece p = true ∧ wfTemplate ps = true := by
      simpa [wfTemplate, List.all_cons] using h
    have ihr := ih h2.2
    cases p with
    | lit s =>
      simp only [renderTemplate, renderBrace]
      rw [replaceDollar_append s _ (wfLit_no_dollar s h2.1), ihr]
    | var n =>
      simp only [renderTemplate, renderBrace]
      rw [replaceDollar_token]
      have hnd : ∀ c ∈ (n ++ ['}']), c ≠ '$' := by
        intro c hc
        rcases List.mem_append.mp hc with hcn | hcb
        · exact wfName_no_dollar n h2.1 c hcn
        · rcases List.mem_singleton.mp hcb with rfl
          decide
      have hsplit : n ++ '}' :: renderTemplate ps = (n ++ ['}']) ++ renderTemplate ps := by
        simp
      rw [hsplit, replaceDollar_append _ _ hnd, ihr]
      simp

theorem fmAux_render (m : List (List Char × List Char)) (ps : List ArgPiece)
    (h : wfTemplate ps = true) :
    fmAux m (renderBrace ps) none = some (substTemplate m ps) := by
  induction ps with
  | nil => rfl
  | cons p ps ih =>
    have h2 : wfPiece p = true ∧ wfTemplate ps = true := by
      simpa [wfTemplate, List.all_cons] using h
    have ihr := ih h2.2
    cases p with
    | lit s =>
      simp only [renderBrace, substTemplate]
      rw [fmAux_lit_append m s _ (wfLit_no_brace s h2.1), ihr]
      rfl
    | var n =>
      simp only [renderBrace, substTemplate]
      rw [fmAux_var m n _ h2.1, ihr]
      rfl

/-- C7 counterexample: on the string `"}${a}"` — a stray `}` before a
token whose name IS in the map — `format_map` raises (`Single '}'`), the
`except` branch returns the string unchanged, and the `${a}` token is
NOT replaced by its value.  So "each token whose name is present is
replaced by its value" fails for arbitrary argument strings. -/
theorem C7_stray_brace_counterexample :
    safe_format [(['a'], ['v'])] ['}', '$', '{', 'a', '}'] =
      ['}', '$', '{', 'a', '}'] ∧
    (['}', '$', '{', 'a', '}'] : List Char) ≠ ['}', 'v'] := by
  constructor
  · rfl
  · decide

/-- C7 (amended): for every argument string built from literal text
free of `{`, `}`, `$` and `${name}` tokens whose names are plain
identifiers, each token whose name is bound in the variable map is
replaced by its value and each unbound token is replaced by the empty
string.  On any other string the internal exception is caught and the
string is returned unchanged — the substitution function never raises
(the `except` branch makes it total, as the counterexample exercises). -/
theorem C7_placeholder_substitution (m : List (List Char × List Char))
    (ps : List ArgPiece) (h : wfTemplate ps = true) :
    safe_format m (renderTemplate ps) = substTemplate m ps := by
  unfold safe_format format_map
  rw [replaceDollar_render ps h, fmAux_render m ps h]

/-- Witness for `C7_placeholder_substitution`: the template
`"x=${n}-${z}"` with `n ↦ "v1"` and `z` unbound renders to `"x=v1-"`. -/
theorem C7_placeholder_substitution_witness :
    wfTemplate [ArgPiece.lit ['x', '='], ArgPiece.var ['n'], ArgPiece.lit ['-'],
      ArgPiece.var ['z']] = true ∧
    safe_format [(['n'], ['v', '1'])]
      (renderTemplate [ArgPiece.lit ['x', '='], ArgPiece.var ['n'],
        ArgPiece.lit ['-'], ArgPiece.var ['z']]) =
      substTemplate [(['n'], ['v', '1'])]
        [ArgPiece.lit ['x', '='], ArgPiece.var ['n'], ArgPiece.lit ['-'],
          ArgPiece.var ['z']] :=
  ⟨by decide, C7_placeholder_substitution [(['n'], ['v', '1'])] _ (by decide)⟩

/-! ## Build orchestrator: the network-call structure of `create_build`

Embedding of the download decisions of `BuildManager.create_build` and
its helpers.  `BuildWorld` is the environment a single call observes:
which version directories exist, the cache, the per-URL network
outcomes, and the parses of fetched JSON documents (`versionInfoAt url`
is the parse of the version document fetched from `url`; `none` models a
`json.load` failure).  Every helper returns `(succeeded, n)` where `n`
counts the network attempts performed (reusing the Transport embedding,
so a cache hit contributes zero).  Filesystem writes (saving JSON
files, profile and instance config) perform no network traffic and
always succeed in this model. -/

structure LibraryEntry where
  /-- `library["rules"]` (empty when absent). -/
  rules : List LibRule
  /-- `library["downloads"]["artifact"]` when present: its `url` and
  `path` fields, each possibly absent. -/
  artifact : Option (Option String × Option String)

structure VersionInfo where
  libraries : List LibraryEntry
  /-- `version_info["downloads"]["client"]["url"]` when present. -/
  clientUrl : Option String
  /-- `version_info["assetIndex"]["url"]` when present. -/
  assetIndexUrl : Option String
  /-- `version_info["assetIndex"]["id"]` when present. -/
  assetIndexId : Option String

structure BuildConfig where
  name : String
  minecraft_version : String
  loader : String
  loader_version : String

structure BuildWorld where
  /-- `platform.system().lower()` after the windows/linux/osx mapping. -/
  currentOS : String
  /-- `platform.machine().lower()`. -/
  currentArch : String
  /-- `(self.versions_path / version).exists()`. -/
  versionDirExists : String → Bool
  /-- `file_path.exists()` in `_download_file` — the destination is a
  function of the URL at the Forge/NeoForge call sites, so it is keyed
  by URL here. -/
  destExists : String → Bool
  /-- `CacheService.has(url)` at the moment of the fetch. -/
  cacheHasKey : String → Bool
  /-- `CacheService.get(url)`. -/
  cacheData : String → Option Blob
  /-- Outcome of the i-th network attempt against a URL. -/
  attempts : String → Nat → AttemptOutcome
  /-- The parsed `manifest["versions"]` list: `(id, url)` per entry. -/
  manifestVersions : List (String × String)
  /-- Parse of the version JSON fetched from a URL (`none` = parse error). -/
  versionInfoAt : String → Option VersionInfo
  /-- Parse of a Fabric/Quilt profile's `libraries` list fetched from a
  URL (`none` = parse error). -/
  loaderProfileAt : String → Option (List LibraryEntry)
  /-- Hashes in `objects` of the asset index fetched from a URL. -/
  assetIndexObjects : String → List String

/-- One `DownloadService().download_file_sync(url, dest)` call, reusing
the Transport embedding: its boolean result and the number of network
attempts it performed. -/
def fetchCount (w : BuildWorld) (url : String) : Bool × Nat :=
  let r := download_file_sync true (w.cacheHasKey url) (w.cacheData url)
    (w.attempts url) none
  (r.ok, r.events.count DlEvent.netAttempt)

def manifestUrl : String :=
  "https://launchermeta.mojang.com/mc/game/version_manifest.json"

def fabricProfileUrl (mc lv : String) : String :=
  "https://meta.fabricmc.net/v2/versions/loader/" ++ mc ++ "/" ++ lv ++ "/profile/json"

def quiltProfileUrl (mc lv : String) : String :=
  "https://meta.quiltmc.org/v3/versions/loader/" ++ mc ++ "/" ++ lv ++ "/profile/json"

def forgeInstallerUrl (mc fv : String) : String :=
  "https://files.minecraftforge.net/maven/net/minecraftforge/forge/" ++ mc ++ "-" ++
    fv ++ "/forge-" ++ mc ++ "-" ++ fv ++ "-installer.jar"

def neoforgeInstallerUrl (nv : String) : String :=
  "https://maven.neoforged.net/releases/net/neoforged/neoforge/" ++ nv ++
    "/neoforge-" ++ nv ++ "-installer.jar"

def paperUrl (mc bn : String) : String :=
  "https://api.papermc.io/v2/projects/paper/versions/" ++ mc ++ "/builds/" ++ bn ++
    "/downloads/paper-" ++ mc ++ "-" ++ bn ++ ".jar"

def purpurUrl (mc bn : String) : String :=
  "https://api.purpurmc.org/v2/purpur/" ++ mc ++ "/" ++ bn ++ "/download"

def assetObjectUrl (h : String) : String :=
  "https://resources.download.minecraft.net/" ++ (h.take 2) ++ "/" ++ h

/-- The `for v in manifest["versions"]` scan with `break` on the first
id match. -/
def lookupVersionUrl : List (String × String) → String → Option String
  | [], _ => none
  | (vid, vurl) :: rest, v => if vid = v then some vurl else lookupVersionUrl rest v

/-- `BuildManager._get_version_info`: fetch the manifest, scan for the
version, fetch its own metadata document, parse it. -/
def get_version_info (w : BuildWorld) (version : String) : Option VersionInfo × Nat :=
  let m := fetchCount w manifestUrl
  if !m.1 then (none, m.2)
  else
    match lookupVersionUrl w.manifestVersions version with
    | none => (none, m.2)
    | some vurl =>
      let d := fetchCount w vurl
      if !d.1 then (none, m.2 + d.2)
      else (w.versionInfoAt vurl, m.2 + d.2)

/-- The library filter of `_download_libraries`: a library is queued iff
its rules make it needed for the current OS/arch and its artifact has
both a `url` and a `path`. -/
def neededLibraryUrls (w : BuildWorld) (libs : List LibraryEntry) : List String :=
  libs.filterMap fun lib =>
    if !(is_library_needed lib.rules w.currentOS w.currentArch) then none
    else
      match lib.artifact with
      | none => none
      | some (u, p) =>
        match u, p with
        | some url, some _ => some url
        | _, _ => none

/-- `BuildManager._download_libraries`: empty queue returns `True`
without dispatching; otherwise the concurrent fetch engine runs every
pair and the result is its aggregate boolean. -/
def download_libraries (w : BuildWorld) (libs : List LibraryEntry) : Bool × Nat :=
  let urls := neededLibraryUrls w libs
  if urls = [] then (true, 0)
  else
    ((download_multiple_files (urls.map (fun u => (fetchCount w u).1))).ok,
      (urls.map (fun u => (fetchCount w u).2)).sum)

/-- `BuildManager._download_assets`: missing index URL or id returns
`False`; otherwise the index is fetched, every hash of length ≥ 2 is
fetched (the engine's aggregate result is ignored by the code), and
`True` is returned. -/
def download_assets (w : BuildWorld) (vi : VersionInfo) : Bool × Nat :=
  match vi.assetIndexUrl, vi.assetIndexId with
  | some url, some _ =>
    let r := fetchCount w url
    if !r.1 then (false, r.2)
    else
      let urls := ((w.assetIndexObjects url).filter (fun h => 2 ≤ h.length)).map
        assetObjectUrl
      (true, r.2 + (urls.map (fun u => (fetchCount w u).2)).sum)
  | _, _ => (false, 0)

/-- `BuildManager._download_minecraft_version`: short-circuits to
success with zero network traffic when the version directory already
exists; otherwise resolves the version, saves its JSON, downloads the
libraries (result ignored by the code), the client jar, and the assets
(result ignored by the code). -/
def download_minecraft_version (w : BuildWorld) (version : String) : Bool × Nat :=
  if w.versionDirExists version then (true, 0)
  else
    let gi := get_version_info w version
    match gi.1 with
    | none => (false, gi.2)
    | some vi =>
      let libsCount := if vi.libraries.isEmpty then (0 : Nat)
        else (download_libraries w vi.libraries).2
      match vi.clientUrl with
      | none => (false, gi.2 + libsCount)
      | some curl =>
        let c := fetchCount w curl
        if !c.1 then (false, gi.2 + libsCount + c.2)
        else (true, gi.2 + libsCount + c.2 + (download_assets w vi).2)

/-- `BuildManager._download_file`: returns `True` immediately when the
destination file exists, otherwise a Transport fetch. -/
def download_file (w : BuildWorld) (url : String) : Bool × Nat :=
  if w.destExists url then (true, 0)
  else fetchCount w url

/-- `BuildManager._install_fabric` (and `_install_quilt`, which is the
same shape): ALWAYS fetches the loader profile from the metadata
service — there is no short-circuit on the already-existing installed
loader version directory — then saves it and downloads its library
list. -/
def install_profile_loader (w : BuildWorld) (url : String) : Bool × Nat :=
  let r := fetchCount w url
  if !r.1 then (false, r.2)
  else
    match w.loaderProfileAt url with
    | none => (false, r.2)
    | some libs =>
      let d := download_libraries w libs
      if !d.1 then (false, r.2 + d.2) else (true, r.2 + d.2)

/-- `BuildManager._install_server_jar` (Paper/Purpur). -/
def install_server_jar (w : BuildWorld) (mc stype bn : String) : Bool × Nat :=
  if stype = "Paper" then fetchCount w (paperUrl mc bn)
  else if stype = "Purpur" then fetchCount w (purpurUrl mc bn)
  else (false, 0)

/-- `BuildManager._install_loader`: string dispatch per loader family;
unknown loaders succeed as a no-op. -/
def install_loader (w : BuildWorld) (mc loader lv : String) : Bool × Nat :=
  if loader = "Fabric" then install_profile_loader w (fabricProfileUrl mc lv)
  else if loader = "Forge" then download_file w (forgeInstallerUrl mc lv)
  else if loader = "Quilt" then install_profile_loader w (quiltProfileUrl mc lv)
  else if loader = "NeoForge" then download_file w (neoforgeInstallerUrl lv)
  else if loader = "Paper" || loader = "Purpur" then install_server_jar w mc loader lv
  else (true, 0)

/-- `BuildManager.create_build`: directories are created, the base
version is downloaded, a non-vanilla loader is installed, and the
launch profile and instance config are written (local writes, no
network). -/
def create_build (w : BuildWorld) (cfg : BuildConfig) : Bool × Nat :=
  let d := download_minecraft_version w cfg.minecraft_version
  if !d.1 then (false, d.2)
  else if cfg.loader ≠ "Vanilla" then
    let l := install_loader w cfg.minecraft_version cfg.loader cfg.loader_version
    if !l.1 then (false, d.2 + l.2)
    else (true, d.2 + l.2)
  else (true, d.2)

/-- A world in which every version directory (base game and installed
loader alike) already exists from a prior successful `create_build`,
the cache is empty/expired, and the network is down. -/
def worldAllExists : BuildWorld where
  currentOS := "windows"
  currentArch := "amd64"
  versionDirExists := fun _ => true
  destExists := fun _ => false
  cacheHasKey := fun _ => false
  cacheData := fun _ => none
  attempts := fun _ _ => AttemptOutcome.fail none
  manifestVersions := []
  versionInfoAt := fun _ => none
  loaderProfileAt := fun _ => none
  assetIndexObjects := fun _ => []

def fabricRerunConfig : BuildConfig where
  name := "Demo"
  minecraft_version := "1.20.1"
  loader := "Fabric"
  loader_version := "0.14.21"

/-- C3 counterexample: with the target fully on disk but an empty cache
and a dead network, a repeated `create_build` for a Fabric build
performs 3 network attempts (the unconditional Fabric profile fetch)
and returns failure — not the claimed zero network calls and success.
The claim's "every loader choice" is therefore false. -/
theorem C3_fabric_reentry_counterexample :
    worldAllExists.versionDirExists fabricRerunConfig.minecraft_version = true ∧
    create_build worldAllExists fabricRerunConfig = (false, 3) := by
  constructor
  · rfl
  · rfl

/-- C3 (amended): the idempotent-re-entry guarantee holds for the base
game and hence for vanilla builds — when the version directory already
exists, base-version resolution short-circuits without any fetch, and a
vanilla `create_build` performs zero network attempts and returns
success.  For non-vanilla loaders the installer re-fetches the loader
profile unconditionally, so the guarantee does not extend to them (see
the counterexample). -/
theorem C3_idempotent_reentry_vanilla (w : BuildWorld) (cfg : BuildConfig)
    (hdir : w.versionDirExists cfg.minecraft_version = true) :
    download_minecraft_version w cfg.minecraft_version = (true, 0) ∧
    (cfg.loader = "Vanilla" → create_build w cfg = (true, 0)) := by
  constructor
  · simp [download_minecraft_version, hdir]
  · intro hv
    simp [create_build, download_minecraft_version, hdir, hv]

def vanillaRerunConfig : BuildConfig where
  name := "Demo"
  minecraft_version := "1.20.1"
  loader := "Vanilla"
  loader_version := ""

/-- Witness for `C3_idempotent_reentry_vanilla` on the concrete
all-exists world. -/
theorem C3_idempotent_reentry_vanilla_witness :
    download_minecraft_version worldAllExists
      vanillaRerunConfig.minecraft_version = (true, 0) ∧
    (vanillaRerunConfig.loader = "Vanilla" →
      create_build worldAllExists vanillaRerunConfig = (true, 0)) :=
  C3_idempotent_reentry_vanilla worldAllExists vanillaRerunConfig rfl

end TKML
